import Mathlib

/-!
Verification of the PktLogicDriver core (`source/drivers/PktLogicDriver.cpp`)
of the codal-core repository: a shallow embedding of the logic driver's
periodic callback, packet handler, filter maintenance and start/stop
operations, together with theorems about the claims of the specification.

Machine integers are modelled as `Nat`; the 8-bit rolling counter wraps with
an explicit `% 256`.  Driver callbacks (`queueControlPacket`,
`deviceConnected`, `deviceRemoved`, `handleControlPacket`) and the bus
transmission are implemented outside this file's source (base class /
transport not in the repository slice), so they are modelled as emitted
events; the packet handler and periodic callback otherwise mutate the slot
table and filter table exactly as the source does.
-/

/-- Device record (`PktDevice` in the source): address, flag bit set,
serial number and 8-bit rolling counter. -/
structure PktDevice where
  address : Nat
  flags : Nat
  serial_number : Nat
  rolling_counter : Nat
deriving Repr, DecidableEq

/-- A driver occupying a slot of the protocol's driver table
(`PktSerialDriver`): its device record and its 32-bit driver class. -/
structure PktSerialDriver where
  device : PktDevice
  driver_class : Nat
deriving Repr, DecidableEq

/-- On-wire control packet (`ControlPacket`). -/
structure ControlPacket where
  address : Nat
  flags : Nat
  serial_number : Nat
  driver_class : Nat
deriving Repr, DecidableEq

/-- Modelled from the spec: the device flag bit encoding.  The header
defining `PKT_DEVICE_FLAGS_*` is not part of the repository slice; the spec
fixes the set {LOCAL, REMOTE, INITIALISING, INITIALISED, CP_SEEN, PAIRED,
BROADCAST} of one-bit flags of a u8 but not the encoding, so distinct powers
of two are chosen. -/
def PKT_DEVICE_FLAGS_LOCAL : Nat := 1

def PKT_DEVICE_FLAGS_REMOTE : Nat := 2

def PKT_DEVICE_FLAGS_INITIALISING : Nat := 4

def PKT_DEVICE_FLAGS_INITIALISED : Nat := 8

def PKT_DEVICE_FLAGS_CP_SEEN : Nat := 16

def PKT_DEVICE_FLAGS_PAIRED : Nat := 32

def PKT_DEVICE_FLAGS_BROADCAST : Nat := 64

/-- Wire flag bits of a `ControlPacket` (spec section 6 fixes these:
CONFLICT=0x01, PAIRED=0x02, BROADCAST=0x04). -/
def CONTROL_PKT_FLAGS_CONFLICT : Nat := 1

def CONTROL_PKT_FLAGS_PAIRED : Nat := 2

def CONTROL_PKT_FLAGS_BROADCAST : Nat := 4

/-- Modelled from the spec: status bits of the component
(`DEVICE_COMPONENT_RUNNING`, `DEVICE_COMPONENT_STATUS_SYSTEM_TICK`); the
CODAL header defining them is not in the repository slice, they are two
distinct status bits. -/
def DEVICE_COMPONENT_RUNNING : Nat := 4096

def DEVICE_COMPONENT_STATUS_SYSTEM_TICK : Nat := 8192

/-- Modelled from the spec: the configuration constants
(`PKT_PROTOCOL_DRIVER_SIZE`, `PKT_LOGIC_DRIVER_MAX_FILTERS`,
`PKT_LOGIC_DRIVER_TIMEOUT`, `PKT_LOGIC_ADDRESS_ALLOC_TIME`,
`PKT_LOGIC_DRIVER_CTRLPACKET_TIME`).  Their defining header is not in the
repository slice; the spec lists them as compile-time configuration
constants without fixing values, so the model is parametric in them. -/
structure Params where
  driverSize : Nat
  maxFilters : Nat
  timeout : Nat
  allocTime : Nat
  ctrlTime : Nat
deriving Repr, DecidableEq

/-- State of the logic driver together with the protocol pieces it touches:
the slot table (`proto.drivers`, entries may be empty), the index of the
slot occupied by the logic driver itself (`this`), the address filter array
and the component status word. -/
structure LogicState where
  drivers : List (Option PktSerialDriver)
  selfIdx : Nat
  address_filters : List Nat
  status : Nat
deriving Repr, DecidableEq

/-- Externally observable actions of the logic driver: calls into the
driver base class (not part of the repository slice) and bus transmissions. -/
inductive Event where
  | queueCP : Nat → Event
  | connected : Nat → PktDevice → Event
  | removed : Nat → Event
  | handleCP : Nat → ControlPacket → Event
  | busSend : ControlPacket → Event
deriving Repr, DecidableEq

/-- Slot lookup: `proto.drivers[i]`, empty when out of range. -/
def slotAt (s : LogicState) (i : Nat) : Option PktSerialDriver :=
  s.drivers.getD i none

/-- `f &= ~m` on a `uint8_t` field: clear the bits of the mask `m` (flags
are 8-bit in the source). -/
def clear8 (f m : Nat) : Nat := f &&& (255 ^^^ m)

/-- `f &= ~m` on a `uint16_t` field: clear the bits of the mask `m` (the
component status word is 16-bit). -/
def clear16 (f m : Nat) : Nat := f &&& (65535 ^^^ m)

/-- `PktLogicDriver::filterPacket`: membership scan of `address_filters`,
looping `i` up to `PKT_PROTOCOL_DRIVER_SIZE` as the source does (reads
beyond the list give 0, i.e. no match; see `filterScan` for the
access-checked version). -/
def filterPacket (P : Params) (filters : List Nat) (address : Nat) : Bool :=
  if address > 0 then
    (List.range P.driverSize).any fun i => filters.getD i 0 == address
  else false

/-- The membership scan of `filterPacket` with checked array accesses: an
index beyond the filter array's length yields `none`. -/
def filterScan (filters : List Nat) (address : Nat) : List Nat → Option Bool
  | [] => some false
  | i :: rest =>
    match filters.get? i with
    | none => none
    | some v => if v == address then some true else filterScan filters address rest

/-- `PktLogicDriver::filterPacket` in the access-checked embedding:
`none` when the loop reads past the end of the filter array. -/
def filterPacketChecked (P : Params) (filters : List Nat) (address : Nat) : Option Bool :=
  if address > 0 then filterScan filters address (List.range P.driverSize)
  else some false

/-- The filter insertion loop of `handlePacket`: for every
`i < PKT_LOGIC_DRIVER_MAX_FILTERS`, if `address_filters[i] == 0` then
`address_filters[i] = address` (the source writes every empty entry). -/
def insertFilterLoop (address : Nat) : List Nat → List Nat → List Nat
  | filters, [] => filters
  | filters, i :: rest =>
    insertFilterLoop address
      (if filters.getD i 1 = 0 then filters.set i address else filters) rest

/-- The filter removal loop of `handlePacket`: for every
`i < PKT_LOGIC_DRIVER_MAX_FILTERS`, if `address_filters[i] == address`
then `address_filters[i] = 0`. -/
def removeFilterLoop (address : Nat) : List Nat → List Nat → List Nat
  | filters, [] => filters
  | filters, i :: rest =>
    removeFilterLoop address
      (if filters.getD i (address + 1) = address then filters.set i 0 else filters) rest

/-- First slot (in index order) satisfying a predicate: the pattern of the
scan loops of `handlePacket` (`continue` on empty or non-matching slots). -/
def firstSlot (drivers : List (Option PktSerialDriver))
    (p : PktSerialDriver → Bool) : List Nat → Option (Nat × PktSerialDriver)
  | [] => none
  | i :: rest =>
    match drivers.getD i none with
    | some d => if p d then some (i, d) else firstSlot drivers p rest
    | none => firstSlot drivers p rest

/-- The slot predicate of the first loop of `handlePacket`: the slot's
device owns the packet's address. -/
def addrPred (cp : ControlPacket) (d : PktSerialDriver) : Bool :=
  d.device.address == cp.address

/-- The slot predicate of the remote-association loop of `handlePacket`:
a REMOTE slot of the packet's driver class whose requested serial number is
0 (any) or equal to the packet's. -/
def remotePred (cp : ControlPacket) (d : PktSerialDriver) : Bool :=
  (d.device.flags &&& PKT_DEVICE_FLAGS_REMOTE != 0) &&
  (d.driver_class == cp.driver_class) &&
  !(decide (d.device.serial_number > 0) && (d.device.serial_number != cp.serial_number))

/-- `PktLogicDriver::handlePacket` on a decoded control packet: address
match (conflict response / conflict notification / CP_SEEN dispatch), the
filter check and insertion/removal, then remote association.  The function
reads and writes only the slot table and the filter table; it returns both
together with the emitted events.  `deviceConnected` is modelled as a
notification event only: its implementation (base class) is outside the
repository slice. -/
def handlePacketCore (P : Params) (drivers : List (Option PktSerialDriver))
    (filters : List Nat) (cp : ControlPacket) :
    List (Option PktSerialDriver) × List Nat × List Event :=
  match firstSlot drivers (addrPred cp) (List.range P.driverSize) with
  | some (i, d) =>
    if d.device.serial_number ≠ cp.serial_number ∧
        d.device.flags &&& PKT_DEVICE_FLAGS_INITIALISING = 0 then
      (drivers, filters,
       [Event.busSend { cp with flags := cp.flags ||| CONTROL_PKT_FLAGS_CONFLICT }])
    else if d.device.flags &&& PKT_DEVICE_FLAGS_INITIALISING ≠ 0 ∧
        cp.flags &&& CONTROL_PKT_FLAGS_CONFLICT ≠ 0 then
      let dev := { d.device with flags := clear8 d.device.flags PKT_DEVICE_FLAGS_INITIALISING }
      (drivers.set i (some { d with device := dev }), filters, [])
    else
      let dev := { d.device with flags := d.device.flags ||| PKT_DEVICE_FLAGS_CP_SEEN }
      (drivers.set i (some { d with device := dev }), filters, [Event.handleCP i cp])
  | none =>
    let filtered := filterPacket P filters cp.address
    if cp.flags &&& CONTROL_PKT_FLAGS_PAIRED ≠ 0 ∧ filtered = false then
      (drivers, insertFilterLoop cp.address filters (List.range P.maxFilters), [])
    else
      let f1 := if filtered = true ∧ cp.flags &&& CONTROL_PKT_FLAGS_BROADCAST ≠ 0 then
          removeFilterLoop cp.address filters (List.range P.maxFilters)
        else filters
      match firstSlot drivers (remotePred cp) (List.range P.driverSize) with
      | some (i, _) =>
        (drivers, f1, [Event.connected i
          { address := cp.address, flags := cp.flags,
            serial_number := cp.serial_number, rolling_counter := 0 }])
      | none => (drivers, f1, [])

/-- `PktLogicDriver::handlePacket` acting on the full state: the core
above applied to the slot table and the filter table (the only state the
source function reads or writes). -/
def handlePacket (P : Params) (s : LogicState) (cp : ControlPacket) :
    LogicState × List Event :=
  let r := handlePacketCore P s.drivers s.address_filters cp
  ({ s with drivers := r.1, address_filters := r.2.1 }, r.2.2)

/-- The conflict scan of the address allocation loop of `periodicCallback`:
does some other slot (`j != i`) hold an INITIALISED device at this
address? -/
def conflictsWith (P : Params) (s : LogicState) (i cand : Nat) : Bool :=
  (List.range P.driverSize).any fun j =>
    (j != i) &&
      match s.drivers.getD j none with
      | some e => (e.device.flags &&& PKT_DEVICE_FLAGS_INITIALISED != 0) &&
          (e.device.address == cand)
      | none => false

/-- The `while (allocated)` re-roll loop of `periodicCallback`: draw
candidates from the random source until one conflicts with no other
INITIALISED slot; `none` when the supplied draws are exhausted. -/
def pickAddress (P : Params) (s : LogicState) (i : Nat) :
    List Nat → Option (Nat × List Nat)
  | [] => none
  | r :: rest =>
    if conflictsWith P s i r then pickAddress P s i rest else some (r, rest)

/-- One iteration of the slot loop of `periodicCallback` for slot `i`:
skip self and empty slots, advance the rolling counter (mod 256) when
INITIALISED or INITIALISING, the REMOTE timeout branch, then the LOCAL
branches (address allocation / allocation completion / periodic control
packet). -/
def processSlot (P : Params) (st : LogicState × List Event × List Nat) (i : Nat) :
    Option (LogicState × List Event × List Nat) :=
  let s := st.1
  let evs := st.2.1
  let rng := st.2.2
  if i = s.selfIdx then some st else
  match s.drivers.getD i none with
  | none => some st
  | some d =>
    let d1 := if d.device.flags &&&
        (PKT_DEVICE_FLAGS_INITIALISED ||| PKT_DEVICE_FLAGS_INITIALISING) ≠ 0 then
        { d with device := { d.device with
            rolling_counter := (d.device.rolling_counter + 1) % 256 } }
      else d
    let s1 := { s with drivers := s.drivers.set i (some d1) }
    if d1.device.flags &&& PKT_DEVICE_FLAGS_REMOTE ≠ 0 ∧
        d1.device.rolling_counter = P.timeout then
      let evs2 := evs ++ (if d1.device.flags &&& PKT_DEVICE_FLAGS_CP_SEEN = 0 then
          [Event.removed i] else [])
      let dev := { d1.device with flags := clear8 d1.device.flags PKT_DEVICE_FLAGS_CP_SEEN }
      some ({ s1 with drivers := s1.drivers.set i (some { d1 with device := dev }) },
        evs2, rng)
    else if d1.device.flags &&& PKT_DEVICE_FLAGS_LOCAL ≠ 0 then
      if d1.device.flags &&&
          (PKT_DEVICE_FLAGS_INITIALISED ||| PKT_DEVICE_FLAGS_INITIALISING) = 0 then
        match pickAddress P s1 i rng with
        | none => none
        | some (a, rng') =>
          let dev := { d1.device with
            address := a
            flags := d1.device.flags ||| PKT_DEVICE_FLAGS_INITIALISING }
          some ({ s1 with drivers := s1.drivers.set i (some { d1 with device := dev }) },
            evs ++ [Event.queueCP i], rng')
      else if d1.device.flags &&& PKT_DEVICE_FLAGS_INITIALISING ≠ 0 then
        if d1.device.rolling_counter = P.allocTime then
          let dev := { d1.device with
            flags := clear8 d1.device.flags PKT_DEVICE_FLAGS_INITIALISING |||
              PKT_DEVICE_FLAGS_INITIALISED }
          some ({ s1 with drivers := s1.drivers.set i (some { d1 with device := dev }) },
            evs ++ [Event.connected i dev], rng)
        else some (s1, evs, rng)
      else if d1.device.flags &&& PKT_DEVICE_FLAGS_INITIALISED ≠ 0 then
        if d1.device.rolling_counter > 0 ∧
            d1.device.rolling_counter % P.ctrlTime = 0 then
          some (s1, evs ++ [Event.queueCP i], rng)
        else some (s1, evs, rng)
      else some (s1, evs, rng)
    else some (s1, evs, rng)

/-- The slot loop of `periodicCallback` over a list of slot indices,
threading state, emitted events and the random source. -/
def tickFrom (P : Params) (st : LogicState × List Event × List Nat) :
    List Nat → Option (LogicState × List Event × List Nat)
  | [] => some st
  | i :: rest =>
    match processSlot P st i with
    | none => none
    | some st' => tickFrom P st' rest

/-- `PktLogicDriver::periodicCallback`: return immediately when the bus is
not running, otherwise run the slot loop over all
`PKT_PROTOCOL_DRIVER_SIZE` slots.  The random source is a list of draws of
`target_random(256)`; `none` models exhaustion of the supplied draws inside
the re-roll loop. -/
def periodicCallback (P : Params) (busRunning : Bool) (s : LogicState)
    (rng : List Nat) : Option (LogicState × List Event × List Nat) :=
  if busRunning then tickFrom P (s, [], rng) (List.range P.driverSize)
  else some (s, [], rng)

/-- `PktLogicDriver::PktLogicDriver`: the logic driver occupies slot 0 of a
fresh table, its record has address 0 and flags LOCAL|INITIALISED, the
filter array is zeroed and status is 0. -/
def initState (P : Params) (serial cls : Nat) : LogicState :=
  let dev : PktDevice := { address := 0
                           flags := PKT_DEVICE_FLAGS_LOCAL ||| PKT_DEVICE_FLAGS_INITIALISED
                           serial_number := serial
                           rolling_counter := 0 }
  { drivers := some { device := dev, driver_class := cls } ::
      List.replicate (P.driverSize - 1) none
    selfIdx := 0
    address_filters := List.replicate P.maxFilters 0
    status := 0 }

/-- `PktLogicDriver::start`. -/
def start (s : LogicState) : LogicState :=
  { s with status := s.status |||
      (DEVICE_COMPONENT_RUNNING ||| DEVICE_COMPONENT_STATUS_SYSTEM_TICK) }

/-- `PktLogicDriver::stop`. -/
def stop (s : LogicState) : LogicState :=
  { s with status := clear16 s.status (DEVICE_COMPONENT_RUNNING ||| DEVICE_COMPONENT_STATUS_SYSTEM_TICK) }

/-- Iterated ticks with the bus reporting not running. -/
def runNotRunning (P : Params) : Nat → LogicState → Option (LogicState × List Event)
  | 0, s => some (s, [])
  | n + 1, s =>
    match periodicCallback P false s [] with
    | none => none
    | some (s', ev, _) =>
      match runNotRunning P n s' with
      | none => none
      | some (s'', ev') => some (s'', ev ++ ev')

/-- Iterated ticks with the bus running and no inbound packets (the random
source is unused when no slot needs address allocation). -/
def runTicks (P : Params) : Nat → LogicState → Option (LogicState × List Event)
  | 0, s => some (s, [])
  | n + 1, s =>
    match periodicCallback P true s [] with
    | none => none
    | some (s', ev, _) =>
      match runTicks P n s' with
      | none => none
      | some (s'', ev') => some (s'', ev ++ ev')

/-- Sample configuration constants for concrete runs: 4 slots, 4 filters,
DRIVER_TIMEOUT 3, ADDRESS_ALLOC_TIME 2, CTRLPACKET period 2. -/
def P0 : Params :=
  { driverSize := 4, maxFilters := 4, timeout := 3, allocTime := 2, ctrlTime := 2 }

/-- The logic driver's own record as the constructor builds it
(LOCAL|INITIALISED = 9, address 0), occupying slot 0. -/
def logicDrv : PktSerialDriver :=
  { device := { address := 0, flags := 9, serial_number := 42, rolling_counter := 0 }
    driver_class := 0 }

/-- A remote-capable slot awaiting association: REMOTE, serial 0 (any),
driver class 77. -/
def remSlot : PktSerialDriver :=
  { device := { address := 0, flags := 2, serial_number := 0, rolling_counter := 0 }
    driver_class := 77 }

/-- Fixture for the filter-insertion claims: empty filter table, only the
logic driver registered. -/
def sFilters : LogicState :=
  { drivers := [some logicDrv, none, none, none]
    selfIdx := 0
    address_filters := [0, 0, 0, 0]
    status := 0 }

/-- A PAIRED control packet for address 5 matching no slot. -/
def cpPaired : ControlPacket :=
  { address := 5, flags := 2, serial_number := 9, driver_class := 7 }

/-- Fixture for the filter-exemption claim: address 5 is in the filter
table and a remote-capable slot of class 77 exists. -/
def sFiltered : LogicState :=
  { drivers := [some logicDrv, some remSlot, none, none]
    selfIdx := 0
    address_filters := [5, 0, 0, 0]
    status := 0 }

/-- A control packet for the filtered address 5 without BROADCAST (and
without PAIRED), of the remote slot's class. -/
def cpFiltered : ControlPacket :=
  { address := 5, flags := 0, serial_number := 57005, driver_class := 77 }

/-- A local driver INITIALISING at address 12 (flags LOCAL|INITIALISING =
5, serial 7). -/
def drvInitialising : PktSerialDriver :=
  { device := { address := 12, flags := 5, serial_number := 7, rolling_counter := 1 }
    driver_class := 3 }

/-- A local driver INITIALISED at address 12 (flags LOCAL|INITIALISED = 9,
serial 100). -/
def drvInitialised : PktSerialDriver :=
  { device := { address := 12, flags := 9, serial_number := 100, rolling_counter := 1 }
    driver_class := 3 }

/-- Fixture for the conflict-response counterexample: two slots share
address 12, the first one INITIALISING, the second INITIALISED. -/
def sDupAddr : LogicState :=
  { drivers := [some logicDrv, some drvInitialising, some drvInitialised, none]
    selfIdx := 0
    address_filters := [0, 0, 0, 0]
    status := 0 }

/-- Fixture for the conflict response: one INITIALISED slot owns address
12 with serial 100. -/
def sOwner : LogicState :=
  { drivers := [some logicDrv, some drvInitialised, none, none]
    selfIdx := 0
    address_filters := [0, 0, 0, 0]
    status := 0 }

/-- A control packet claiming address 12 with a different serial (200). -/
def cpClash : ControlPacket :=
  { address := 12, flags := 0, serial_number := 200, driver_class := 3 }

/-- A local driver with neither INITIALISING nor INITIALISED (flags LOCAL
= 1) and a stale rolling counter of 3. -/
def drvFresh : PktSerialDriver :=
  { device := { address := 0, flags := 1, serial_number := 5, rolling_counter := 3 }
    driver_class := 3 }

/-- Fixture for the address-allocation claim: slot 1 is LOCAL and
unallocated with rolling counter 3. -/
def sAlloc : LogicState :=
  { drivers := [some logicDrv, some drvFresh, none, none]
    selfIdx := 0
    address_filters := [0, 0, 0, 0]
    status := 0 }

/-- Fixture for the remote-association claim (scenario S3): empty filter
table, remote-capable slot of class 77 and serial 0. -/
def sAssoc : LogicState :=
  { drivers := [some logicDrv, some remSlot, none, none]
    selfIdx := 0
    address_filters := [0, 0, 0, 0]
    status := 0 }

/-- Scenario S3's inbound packet: address 7, flags 0, serial 0xDEADBEEF,
class 77. -/
def cpS3 : ControlPacket :=
  { address := 7, flags := 0, serial_number := 3735928559, driver_class := 77 }

/-- An associated REMOTE peer being tracked for liveness: flags
REMOTE|INITIALISED|CP_SEEN = 26 at address 7, rolling counter 0 (its last
control packet has just been seen). -/
def drvRemoteLive : PktSerialDriver :=
  { device := { address := 7, flags := 26, serial_number := 11, rolling_counter := 0 }
    driver_class := 77 }

/-- Fixture for the liveness-timeout claim: slot 1 tracks a remote peer
that will now fall silent. -/
def sLive : LogicState :=
  { drivers := [some logicDrv, some drvRemoteLive, none, none]
    selfIdx := 0
    address_filters := [0, 0, 0, 0]
    status := 0 }

/-- Sample configuration for the filter bound claim: 16 driver slots but
only 8 filter entries. -/
def P10 : Params :=
  { driverSize := 16, maxFilters := 8, timeout := 3, allocTime := 2, ctrlTime := 2 }

/-- A four-slot configuration with generic DRIVER_TIMEOUT `T`,
ADDRESS_ALLOC_TIME `u` and CTRLPACKET period `v`. -/
def PT (T u v : Nat) : Params :=
  { driverSize := 4, maxFilters := 4, timeout := T, allocTime := u, ctrlTime := v }

/-- The liveness-tracking family of states: slot 1 holds an associated
REMOTE peer (flags REMOTE|INITIALISED, plus CP_SEEN when `seen`) at
address `a` with serial `sn` and rolling counter `c`. -/
def liveState (a sn c : Nat) (seen : Bool) : LogicState :=
  { drivers := [some logicDrv,
      some { device := { address := a
                         flags := if seen then 26 else 10
                         serial_number := sn
                         rolling_counter := c }
             driver_class := 77 }, none, none]
    selfIdx := 0
    address_filters := [0, 0, 0, 0]
    status := 0 }

/-- The outcome of one tick on `sAlloc` with draws [0, 9]: draw 0 is
rejected (the logic driver's own record is INITIALISED at address 0), slot
1 takes address 9 with INITIALISING set and its rolling counter still 3,
and one control packet is queued. -/
def outAlloc : LogicState × List Event × List Nat :=
  ({ drivers := [some logicDrv,
       some { device := { address := 9
                          flags := 5
                          serial_number := 5
                          rolling_counter := 3 }
              driver_class := 3 }, none, none]
     selfIdx := 0
     address_filters := [0, 0, 0, 0]
     status := 0 },
   [Event.queueCP 1], [])

/-- The slot index an emitted event belongs to (`busSend` belongs to no
slot). -/
def eventSlot : Event → Option Nat
  | Event.queueCP i => some i
  | Event.connected i _ => some i
  | Event.removed i => some i
  | Event.handleCP i _ => some i
  | Event.busSend _ => none

/-- The claimed table invariant, restricted to the slots other than the
logic driver's own: every INITIALISED record has a non-zero address and no
two INITIALISED records share an address. -/
def InvP (s : LogicState) : Prop :=
  ∀ i d, i ≠ s.selfIdx → s.drivers.getD i none = some d →
    d.device.flags &&& PKT_DEVICE_FLAGS_INITIALISED ≠ 0 →
    d.device.address ≠ 0 ∧
    ∀ j e, j ≠ s.selfIdx → j ≠ i → s.drivers.getD j none = some e →
      e.device.flags &&& PKT_DEVICE_FLAGS_INITIALISED ≠ 0 →
      e.device.address ≠ d.device.address

/-- The strengthened invariant needed for preservation across a periodic
tick: the non-zero/distinct-address property over the slots (other than
the logic driver's own) that are INITIALISED or INITIALISING. -/
def StrongInvP (s : LogicState) : Prop :=
  ∀ i d, i ≠ s.selfIdx → s.drivers.getD i none = some d →
    d.device.flags &&& (PKT_DEVICE_FLAGS_INITIALISED ||| PKT_DEVICE_FLAGS_INITIALISING) ≠ 0 →
    d.device.address ≠ 0 ∧
    ∀ j e, j ≠ s.selfIdx → j ≠ i → s.drivers.getD j none = some e →
      e.device.flags &&& (PKT_DEVICE_FLAGS_INITIALISED ||| PKT_DEVICE_FLAGS_INITIALISING) ≠ 0 →
      e.device.address ≠ d.device.address

/-- C3: at a concrete state whose filter table contains address 5, an
inbound control packet for address 5 without the BROADCAST flag and
matching no slot by address nevertheless falls through to remote
association: `device_connected` is invoked on the REMOTE slot.  The filter
only suppresses the PAIRED-insertion branch; it does not exempt the
address from association. -/
theorem C3_filter_fallthrough :
    filterPacket P0 sFiltered.address_filters cpFiltered.address = true ∧
    cpFiltered.flags &&& CONTROL_PKT_FLAGS_BROADCAST = 0 ∧
    firstSlot sFiltered.drivers (addrPred cpFiltered) (List.range P0.driverSize) = none ∧
    (handlePacket P0 sFiltered cpFiltered).2 =
      [Event.connected 1
        { address := 5, flags := 0, serial_number := 57005, rolling_counter := 0 }] := by
  decide

/-- C7: at a concrete state with an all-empty four-entry filter table, a
PAIRED control packet for address 5 matching no slot writes address 5 into
EVERY empty filter entry, not only the first one: the resulting table is
[5,5,5,5] rather than [5,0,0,0]. -/
theorem C7_filter_insert_all :
    firstSlot sFilters.drivers (addrPred cpPaired) (List.range P0.driverSize) = none ∧
    cpPaired.flags &&& CONTROL_PKT_FLAGS_PAIRED ≠ 0 ∧
    filterPacket P0 sFilters.address_filters cpPaired.address = false ∧
    (handlePacket P0 sFilters cpPaired).1.address_filters = [5, 5, 5, 5] ∧
    (handlePacket P0 sFilters cpPaired).2 = [] := by
  decide

/-- C10: with 16 driver slots and an 8-entry filter array (the constants
are configuration parameters whose header is outside the repository
slice), the membership scan of `filterPacket` — which loops up to
`PKT_PROTOCOL_DRIVER_SIZE`, unlike the insertion and removal loops which
use `PKT_LOGIC_DRIVER_MAX_FILTERS` — reads past the end of the filter
array: the access-checked embedding returns `none` on a fresh (all-zero)
filter table for any non-zero address, here 5. -/
theorem C10_filter_scan_bound :
    (List.replicate P10.maxFilters 0).length = P10.maxFilters ∧
    P10.maxFilters < P10.driverSize ∧
    filterPacketChecked P10 (List.replicate P10.maxFilters 0) 5 = none := by
  decide

/-- C8: any number of consecutive periodic ticks during which the bus
reports not running leaves the state (every slot's flags, counter and
address, the filter table and status) unchanged, transmits nothing and
invokes no driver callback. -/
theorem C8_bus_stopped (P : Params) (n : Nat) (s : LogicState) :
    runNotRunning P n s = some (s, []) := by
  induction n with
  | zero => rfl
  | succ n ih => simp [runNotRunning, periodicCallback, ih]

/-- C1 fails at the initial state: the record produced by the constructor
for the logic driver's own slot has INITIALISED set and address 0, so not
every INITIALISED record in the table has a non-zero address. -/
theorem C1_counterexample :
    ¬ (∀ i d, slotAt (initState P0 42 0) i = some d →
        d.device.flags &&& PKT_DEVICE_FLAGS_INITIALISED ≠ 0 →
        d.device.address ≠ 0) := by
  intro h
  exact h 0 _ rfl (by decide) (by decide)

/-- C2 fails on the counter reset: at a concrete state whose slot 1 is
LOCAL with neither INITIALISING nor INITIALISED and rolling counter 3, the
allocation branch of `periodicCallback` leaves the rolling counter at 3
instead of resetting it to 0. -/
theorem C2_counterexample :
    ¬ (∀ s' ev rng', periodicCallback P0 true sAlloc [0, 9] = some (s', ev, rng') →
        ∀ d, slotAt s' 1 = some d → d.device.rolling_counter = 0) := by
  intro h
  exact absurd (h _ _ _ rfl _ rfl) (by decide)

/-- C4 fails when two slots share the packet's address and the first one
is INITIALISING: at a concrete state where slot 2 satisfies the claim's
premise (address 12, not INITIALISING, serial differs from the packet's),
`handlePacket` transmits nothing — the scan stops at slot 1 (also address
12, INITIALISING, no CONFLICT flag on the packet), sets its CP_SEEN flag
and dispatches the packet to it. -/
theorem C4_counterexample :
    (∃ j d, slotAt sDupAddr j = some d ∧ d.device.address = cpClash.address ∧
      d.device.flags &&& PKT_DEVICE_FLAGS_INITIALISING = 0 ∧
      d.device.serial_number ≠ cpClash.serial_number) ∧
    (handlePacket P0 sDupAddr cpClash).2 = [Event.handleCP 1 cpClash] ∧
    (handlePacket P0 sDupAddr cpClash).1 ≠ sDupAddr := by
  refine ⟨⟨2, drvInitialised, rfl, by decide, by decide, by decide⟩, by decide, by decide⟩

/-- C4 amended: when the FIRST slot whose address equals the packet's is
not INITIALISING and its serial differs from the packet's, `handlePacket`
returns the state unchanged and transmits, synchronously, exactly one
control packet equal to the inbound one with the CONFLICT flag set. -/
theorem C4_conflict_amended (P : Params) (s : LogicState) (cp : ControlPacket)
    (i : Nat) (d : PktSerialDriver)
    (h1 : firstSlot s.drivers (addrPred cp) (List.range P.driverSize) = some (i, d))
    (h2 : d.device.serial_number ≠ cp.serial_number)
    (h3 : d.device.flags &&& PKT_DEVICE_FLAGS_INITIALISING = 0) :
    handlePacket P s cp =
      (s, [Event.busSend { cp with flags := cp.flags ||| CONTROL_PKT_FLAGS_CONFLICT }]) := by
  simp [handlePacket, handlePacketCore, h1, h2, h3]

/-- C4 witness: the amended conflict response at the concrete owner state
(scenario S5: INITIALISED slot at address 12, serial 100; inbound packet
address 12, serial 200). -/
theorem C4_witness :
    handlePacket P0 sOwner cpClash =
      (sOwner, [Event.busSend { address := 12, flags := 1, serial_number := 200, driver_class := 3 }]) :=
  C4_conflict_amended P0 sOwner cpClash 1 drvInitialised (by decide) (by decide) (by decide)

/-- C6 fails on the flags of the record passed to `device_connected`: in
scenario S3 (inbound packet with flags 0 associating to a REMOTE slot)
the record's flags are copied from the packet, hence 0, and do not
include REMOTE. -/
theorem C6_counterexample :
    ¬ (∀ i r, Event.connected i r ∈ (handlePacket P0 sAssoc cpS3).2 →
        r.flags &&& PKT_DEVICE_FLAGS_REMOTE ≠ 0) := by
  intro h
  exact h 1 { address := 7, flags := 0, serial_number := 3735928559, rolling_counter := 0 }
    (by decide) (by decide)

/-- C6 amended: for an inbound packet that matches no slot by address, is
not filtered and does not carry the PAIRED flag, if some slot satisfies
the remote-association predicate (REMOTE, same driver class, serial 0 or
equal), then `device_connected` is invoked exactly once, on the first such
slot in slot order, with a record whose address, serial and FLAGS are
copied from the packet and whose rolling counter is 0; the state is
unchanged. -/
theorem C6_association_amended (P : Params) (s : LogicState) (cp : ControlPacket)
    (i : Nat) (d : PktSerialDriver)
    (h1 : firstSlot s.drivers (addrPred cp) (List.range P.driverSize) = none)
    (h2 : filterPacket P s.address_filters cp.address = false)
    (h3 : cp.flags &&& CONTROL_PKT_FLAGS_PAIRED = 0)
    (h4 : firstSlot s.drivers (remotePred cp) (List.range P.driverSize) = some (i, d)) :
    handlePacket P s cp =
      (s, [Event.connected i
        { address := cp.address, flags := cp.flags,
          serial_number := cp.serial_number, rolling_counter := 0 }]) := by
  simp [handlePacket, handlePacketCore, h1, h2, h3, h4]

/-- C6 witness: the amended association at the concrete scenario-S3 state:
`device_connected` fires once on slot 1 with record address 7, serial
0xDEADBEEF, flags 0, counter 0. -/
theorem C6_witness :
    handlePacket P0 sAssoc cpS3 =
      (sAssoc, [Event.connected 1
        { address := 7, flags := 0, serial_number := 3735928559, rolling_counter := 0 }]) :=
  C6_association_amended P0 sAssoc cpS3 1 remSlot (by decide) (by decide) (by decide) (by decide)

/-- C9 fails for `handlePacket`: at a concrete state on which `stop` has
just cleared the RUNNING and SYSTEM_TICK status bits, an inbound control
packet clashing with an owned address still causes a synchronous bus
transmission. -/
theorem C9_counterexample :
    (stop sOwner).status &&&
      (DEVICE_COMPONENT_RUNNING ||| DEVICE_COMPONENT_STATUS_SYSTEM_TICK) = 0 ∧
    (handlePacket P0 (stop sOwner) cpClash).2 =
      [Event.busSend { address := 12, flags := 1, serial_number := 200, driver_class := 3 }] := by
  decide

/-- C9 amended: `stop` clears exactly the RUNNING and SYSTEM_TICK status
bits, touching no slot, filter or other field (so the scheduler no longer
drives `periodicCallback`), but the status bits do not gate `handlePacket`:
its slot mutations, filter mutations and emitted events (callbacks and bus
transmissions) are identical on any two states agreeing on the slot table
and the filter table, in particular on a stopped and a started state. -/
theorem C9_stop_amended :
    (∀ s : LogicState,
      (stop s).status &&&
        (DEVICE_COMPONENT_RUNNING ||| DEVICE_COMPONENT_STATUS_SYSTEM_TICK) = 0 ∧
      (stop s).drivers = s.drivers ∧
      (stop s).address_filters = s.address_filters ∧
      (stop s).selfIdx = s.selfIdx) ∧
    (∀ (P : Params) (s t : LogicState) (cp : ControlPacket),
      s.drivers = t.drivers → s.address_filters = t.address_filters →
      (handlePacket P s cp).1.drivers = (handlePacket P t cp).1.drivers ∧
      (handlePacket P s cp).1.address_filters = (handlePacket P t cp).1.address_filters ∧
      (handlePacket P s cp).2 = (handlePacket P t cp).2) := by
  constructor
  · intro s
    refine ⟨?_, rfl, rfl, rfl⟩
    have h : (65535 ^^^ (DEVICE_COMPONENT_RUNNING ||| DEVICE_COMPONENT_STATUS_SYSTEM_TICK)) &&&
        (DEVICE_COMPONENT_RUNNING ||| DEVICE_COMPONENT_STATUS_SYSTEM_TICK) = 0 := by decide
    simp [stop, clear16, Nat.land_assoc, h]
  · intro P s t cp hd hf
    simp [handlePacket, hd, hf]

/-- C9 witness: the amended statement applied at the concrete owner state
against its started variant. -/
theorem C9_witness :
    (stop sOwner).status &&&
      (DEVICE_COMPONENT_RUNNING ||| DEVICE_COMPONENT_STATUS_SYSTEM_TICK) = 0 ∧
    (handlePacket P0 (stop sOwner) cpClash).2 = (handlePacket P0 (start sOwner) cpClash).2 :=
  ⟨(C9_stop_amended.1 sOwner).1,
   (C9_stop_amended.2 P0 (stop sOwner) (start sOwner) cpClash rfl rfl).2.2⟩

/-- One tick of the liveness family: the remote slot's counter advances
mod 256; when it reaches DRIVER_TIMEOUT, `device_removed` fires iff
CP_SEEN is clear and CP_SEEN is then cleared. -/
theorem live_step (T u v a sn c : Nat) (seen : Bool) :
    periodicCallback (PT T u v) true (liveState a sn c seen) [] =
      some (liveState a sn ((c + 1) % 256) (if (c + 1) % 256 = T then false else seen),
        (if (c + 1) % 256 = T ∧ seen = false then [Event.removed 1] else []), []) := by
  have hr : List.range (PT T u v).driverSize = [0, 1, 2, 3] := rfl
  cases seen <;> by_cases h : (c + 1) % 256 = T <;>
    simp [periodicCallback, hr, tickFrom, processSlot, liveState, logicDrv, PT, h, clear8,
      PKT_DEVICE_FLAGS_LOCAL, PKT_DEVICE_FLAGS_REMOTE, PKT_DEVICE_FLAGS_INITIALISING,
      PKT_DEVICE_FLAGS_INITIALISED, PKT_DEVICE_FLAGS_CP_SEEN] <;> try decide

/-- Closed form of the liveness family over any number of silent ticks:
with the counter starting at `c < 256` and the first tick at which it
reaches DRIVER_TIMEOUT being `k1` (`1 ≤ k1 ≤ 256`), after `k` ticks the
counter is `(c+k) % 256`, CP_SEEN survives exactly up to tick `k1`, and
`device_removed` has fired `(k-k1)/256` times when CP_SEEN was initially
set (one more time when it was initially clear). -/
theorem live_run (T u v a sn : Nat) :
    ∀ (k c k1 : Nat) (b : Bool), c < 256 → T < 256 → 0 < k1 → k1 ≤ 256 →
      (c + k1) % 256 = T →
      runTicks (PT T u v) k (liveState a sn c b) =
        some (liveState a sn ((c + k) % 256) (b && decide (k < k1)),
          List.replicate
            (if b then (k - k1) / 256 else if k1 ≤ k then (k - k1) / 256 + 1 else 0)
            (Event.removed 1)) := by
  intro k
  induction k with
  | zero =>
    intro c k1 b hc hT hk1 hk2 hk3
    have hc' : c % 256 = c := Nat.mod_eq_of_lt hc
    have hnle : ¬ (k1 ≤ 0) := by omega
    simp [runTicks, hc', hk1, hnle]
  | succ k ih =>
    intro c k1 b hc hT hk1 hk2 hk3
    have hstep := live_step T u v a sn c b
    have hmod : (c + 1) % 256 < 256 := Nat.mod_lt _ (by omega)
    by_cases hA : (c + 1) % 256 = T
    · have hk1eq : k1 = 1 := by omega
      subst hk1eq
      have ih' := ih ((c + 1) % 256) 256 false hmod hT (by omega) (by omega) (by omega)
      have hcnt : ((c + 1) % 256 + k) % 256 = (c + (k + 1)) % 256 := by omega
      have hdiv : (if (256 : Nat) ≤ k then (k - 256) / 256 + 1 else 0) = k / 256 := by
        by_cases h : (256 : Nat) ≤ k <;> simp [h] <;> omega
      rw [hcnt] at ih'
      simp only [Bool.false_and] at ih'
      have hif : (if (false : Bool) = true then (k - 256) / 256
          else if 256 ≤ k then (k - 256) / 256 + 1 else 0) =
          (if 256 ≤ k then (k - 256) / 256 + 1 else 0) := by simp
      rw [hif, hdiv, hA] at ih'
      have hnot1 : ¬ (k + 1 < 1) := by omega
      cases b
      · simp [runTicks, hstep, hA]
        rw [ih']
        have h1le : (1 : Nat) ≤ k + 1 := by omega
        simp [h1le, hnot1, List.replicate_succ]
      · simp [runTicks, hstep, hA]
        rw [ih']
        try simp [hnot1]
    · have ih' := ih ((c + 1) % 256) (k1 - 1) b hmod hT (by omega) (by omega) (by omega)
      have hcnt : ((c + 1) % 256 + k) % 256 = (c + (k + 1)) % 256 := by omega
      rw [hcnt] at ih'
      have hne : ¬ ((c + 1) % 256 = T ∧ (b = false)) := by
        intro hcon
        exact hA hcon.1
      simp only [runTicks, hstep, if_neg hA, if_neg hne, ih']
      have hseen : (decide (k < k1 - 1)) = (decide (k + 1 < k1)) :=
        decide_eq_decide.mpr (by omega)
      have hcount : (if b = true then (k - (k1 - 1)) / 256 else
          if k1 - 1 ≤ k then (k - (k1 - 1)) / 256 + 1 else 0) =
          (if b = true then (k + 1 - k1) / 256 else
          if k1 ≤ k + 1 then (k + 1 - k1) / 256 + 1 else 0) := by
        have hsub : k - (k1 - 1) = k + 1 - k1 := by omega
        cases b
        · by_cases hca : k1 - 1 ≤ k
          · have hcb : k1 ≤ k + 1 := by omega
            simp [hca, hcb, hsub]
          · have hcb : ¬ (k1 ≤ k + 1) := by omega
            simp [hca, hcb]
        · simp [hsub]
      rw [hseen, hcount, List.nil_append]

/-- C5 fails at a concrete instance: with DRIVER_TIMEOUT 3 and
CTRLPACKET period 2, a REMOTE peer whose last control packet was just
seen (CP_SEEN set, counter 0) triggers no `device_removed` during the
first 5 ticks, although the claim places the removal within
[DRIVER_TIMEOUT, DRIVER_TIMEOUT + CTRLPACKET_PERIOD] = [3,5] ticks of the
last control packet (the first removal actually occurs at tick 259). -/
theorem C5_counterexample :
    ((List.range 6).all fun k =>
      match runTicks (PT 3 2 2) k (liveState 7 11 0 true) with
      | some (_, ev) => ev.isEmpty
      | none => false) = true := by
  decide

/-- C5 amended: for a tracked REMOTE peer (flags REMOTE|INITIALISED with
CP_SEEN just set by its last control packet, 8-bit counter `c`), running
`k` silent ticks yields counter `(c+k) % 256`, CP_SEEN surviving exactly
until tick `k1` (the first tick at which the counter reaches
DRIVER_TIMEOUT, `1 ≤ k1 ≤ 256`), and `device_removed` invoked
`(k-k1)/256` times — i.e. NOT exactly once: the first invocation occurs at
tick `k1+256 ∈ (256, 512]` (independent of DRIVER_TIMEOUT and
CTRLPACKET_PERIOD, because CP_SEEN is only examined and cleared when the
wrapping counter equals DRIVER_TIMEOUT), and it recurs every 256 ticks
thereafter. -/
theorem C5_liveness_amended (T u v a sn c k1 : Nat) (hc : c < 256) (hT : T < 256)
    (hk1 : 0 < k1) (hk2 : k1 ≤ 256) (hk3 : (c + k1) % 256 = T) (k : Nat) :
    runTicks (PT T u v) k (liveState a sn c true) =
      some (liveState a sn ((c + k) % 256) (decide (k < k1)),
        List.replicate ((k - k1) / 256) (Event.removed 1)) := by
  have h := live_run T u v a sn k c k1 true hc hT hk1 hk2 hk3
  simpa using h

/-- C5 witness: the amended statement at DRIVER_TIMEOUT 3, counter 0
(hence k1 = 3) over 259 ticks: exactly one removal has occurred, at tick
259 = k1 + 256. -/
theorem C5_witness :
    ((0 : Nat) < 256 ∧ (3 : Nat) < 256 ∧ (0 : Nat) < 3 ∧ (3 : Nat) ≤ 256 ∧
      (0 + 3) % 256 = 3) ∧
    runTicks (PT 3 2 2) 259 (liveState 7 11 0 true) =
      some (liveState 7 11 ((0 + 259) % 256) (decide (259 < 3)),
        List.replicate ((259 - 3) / 256) (Event.removed 1)) :=
  ⟨by decide,
   C5_liveness_amended 3 2 2 7 11 0 3 (by decide) (by decide) (by decide) (by decide)
     (by decide) 259⟩

/-- Clearing a mask then testing a bit: reassociation of `&&&`. -/
theorem and_mask_assoc (f m b c : Nat) (h : m &&& b = c) : (f &&& m) &&& b = f &&& c := by
  rw [Nat.land_assoc, h]

/-- Setting disjoint bits does not change a bit test. -/
theorem or_mask_and (f a b : Nat) (h : a &&& b = 0) : (f ||| a) &&& b = f &&& b := by
  rw [Nat.and_distrib_right, h, Nat.or_zero]

/-- A bitwise or with a non-zero right operand is non-zero. -/
theorem or_ne_zero_right (a b : Nat) (h : b ≠ 0) : a ||| b ≠ 0 := by
  intro h0
  apply h
  apply Nat.eq_of_testBit_eq
  intro i
  have hcg := congrArg (fun x => Nat.testBit x i) h0
  simp only [Nat.testBit_or, Nat.zero_testBit] at hcg
  simp only [Nat.zero_testBit]
  exact (Bool.or_eq_false_iff.mp hcg).2

/-- A bitwise or with a non-zero left operand is non-zero. -/
theorem or_ne_zero_left (a b : Nat) (h : a ≠ 0) : a ||| b ≠ 0 := by
  rw [Nat.lor_comm]
  exact or_ne_zero_right b a h

/-- Splitting the INITIALISED|INITIALISING mask test. -/
theorem and_twelve_split (f : Nat) : f &&& 12 = (f &&& 8) ||| (f &&& 4) := by
  have h12 : (12 : Nat) = 8 ||| 4 := by decide
  rw [h12, Nat.land_comm f (8 ||| 4), Nat.and_distrib_right,
    Nat.land_comm 8 f, Nat.land_comm 4 f]

/-- `List.getD` at an index other than the one being set. -/
theorem getD_set_ne {α : Type} (l : List α) (i k : Nat) (a d : α) (h : i ≠ k) :
    (l.set i a).getD k d = l.getD k d := by
  simp [List.getD, List.getElem?_set_ne h]

/-- `List.getD` at the index being set (index in range). -/
theorem getD_set_self {α : Type} (l : List α) (i : Nat) (a d : α) (h : i < l.length) :
    (l.set i a).getD i d = a := by
  simp [List.getD, List.getElem?_set_eq_of_lt a h]

/-- An occupied slot index is within the table's length. -/
theorem lt_length_of_getD {α : Type} (l : List (Option α)) (i : Nat) (x : α)
    (h : l.getD i none = some x) : i < l.length := by
  by_contra hc
  have hnone : l[i]? = none := List.getElem?_eq_none (by omega)
  simp [List.getD, hnone] at h

/-- Empty slots of a replicated-empty table. -/
theorem getD_replicate_none {α : Type} (m k : Nat) :
    (List.replicate m (none : Option α)).getD k none = none := by
  simp [List.getD, List.getElem?_replicate]
  split <;> rfl

/-- `List.any` respects pointwise equal predicates. -/
theorem any_congr_pt {α : Type} (f g : α → Bool) :
    ∀ l : List α, (∀ x ∈ l, f x = g x) → l.any f = l.any g := by
  intro l
  induction l with
  | nil => intro _; rfl
  | cons x xs ih =>
    intro h
    simp only [List.any_cons]
    rw [h x (by simp), ih (fun y hy => h y (by simp [hy]))]

/-- A successful `firstSlot` scan returns an occupied, matching slot whose
index was in the scanned list. -/
theorem firstSlot_eq_some (drivers : List (Option PktSerialDriver))
    (p : PktSerialDriver → Bool) :
    ∀ (L : List Nat) (i : Nat) (d : PktSerialDriver),
      firstSlot drivers p L = some (i, d) →
      drivers.getD i none = some d ∧ p d = true ∧ i ∈ L := by
  intro L
  induction L with
  | nil => intro i d h; simp [firstSlot] at h
  | cons j rest ih =>
    intro i d h
    simp only [firstSlot] at h
    cases hj : drivers.getD j none with
    | none =>
      simp only [hj] at h
      have := ih i d h
      exact ⟨this.1, this.2.1, by simp [this.2.2]⟩
    | some e =>
      simp only [hj] at h
      by_cases hp : p e
      · simp only [if_pos hp] at h
        cases h
        exact ⟨hj, hp, by simp⟩
      · simp only [if_neg hp] at h
        have := ih i d h
        exact ⟨this.1, this.2.1, by simp [this.2.2]⟩

/-- A step of the slot loop writes only slot `i`: the self index, filter
table, status, table length, and every other slot are unchanged. -/
theorem processSlot_frame (P : Params) (st st' : LogicState × List Event × List Nat)
    (i : Nat) (h : processSlot P st i = some st') :
    st'.1.selfIdx = st.1.selfIdx ∧ st'.1.address_filters = st.1.address_filters ∧
    st'.1.status = st.1.status ∧ st'.1.drivers.length = st.1.drivers.length ∧
    ∀ k, k ≠ i → st'.1.drivers.getD k none = st.1.drivers.getD k none := by
  simp only [processSlot] at h
  repeat' split at h
  all_goals first
    | exact Option.noConfusion h
    | (cases h
       exact ⟨rfl, rfl, rfl, by simp,
         fun k hk => by simp [List.getD, List.getElem?_set_ne (Ne.symm hk)]⟩)

/-- Where an INITIALISED record after one slot step comes from: the slot
held a record with the same address that was already INITIALISED, or was
INITIALISING (allocation completion). -/
theorem processSlot_origin (P : Params) (st st' : LogicState × List Event × List Nat)
    (i : Nat) (h : processSlot P st i = some st') (d' : PktSerialDriver)
    (h' : st'.1.drivers.getD i none = some d')
    (hflag : d'.device.flags &&& PKT_DEVICE_FLAGS_INITIALISED ≠ 0) :
    ∃ d, st.1.drivers.getD i none = some d ∧ d.device.address = d'.device.address ∧
      (d.device.flags &&& PKT_DEVICE_FLAGS_INITIALISED ≠ 0 ∨
       d.device.flags &&& PKT_DEVICE_FLAGS_INITIALISING ≠ 0) := by
  simp only [processSlot] at h
  by_cases hself : i = st.1.selfIdx
  · rw [if_pos hself] at h
    cases h
    exact ⟨d', h', rfl, Or.inl hflag⟩
  rw [if_neg hself] at h
  cases hpre : st.1.drivers.getD i none with
  | none =>
    simp only [hpre] at h
    cases h
    rw [hpre] at h'
    exact Option.noConfusion h'
  | some d =>
    simp only [hpre] at h
    have hlen : i < st.1.drivers.length := lt_length_of_getD _ _ _ hpre
    repeat' split at h
    all_goals first
      | exact Option.noConfusion h
      | (cases h
         rw [getD_set_self _ _ _ _ (by simpa using hlen)] at h'
         injection h' with hrec
         subst hrec
         simp [PKT_DEVICE_FLAGS_INITIALISED, PKT_DEVICE_FLAGS_INITIALISING,
           PKT_DEVICE_FLAGS_CP_SEEN, clear8] at hflag
         first
           | exact ⟨d, rfl, rfl, Or.inl hflag⟩
           | (rw [and_mask_assoc _ 239 8 8 (by decide)] at hflag
              exact ⟨d, rfl, rfl, Or.inl hflag⟩)
           | (exfalso
              rw [or_mask_and _ 4 8 (by decide)] at hflag
              have h12 : d.device.flags &&& 12 = 0 := by assumption
              rw [and_twelve_split] at h12
              have h8 : d.device.flags &&& 8 = 0 := by
                by_contra hne
                exact or_ne_zero_left _ _ hne h12
              exact hflag h8)
           | exact ⟨d, rfl, rfl, Or.inr (by assumption)⟩)

/-- A step of the slot loop appends only events belonging to its slot. -/
theorem processSlot_events (P : Params) (st st' : LogicState × List Event × List Nat)
    (i : Nat) (h : processSlot P st i = some st') :
    ∃ new, st'.2.1 = st.2.1 ++ new ∧ ∀ e ∈ new, eventSlot e = some i := by
  simp only [processSlot] at h
  repeat' split at h
  all_goals first
    | exact Option.noConfusion h
    | (cases h
       first
         | (refine ⟨[], ?_, ?_⟩
            all_goals simp
            done)
         | (refine ⟨_, rfl, ?_⟩
            intro e he
            simp only [List.mem_singleton] at he
            subst he
            rfl))

/-- The random draws remaining after a successful re-roll loop form a
suffix of the supplied draws; the chosen address is one of the draws and
conflicts with no other INITIALISED slot. -/
theorem pickAddress_spec (P : Params) (s : LogicState) (i : Nat) :
    ∀ (rolls : List Nat) (a : Nat) (rng' : List Nat),
      pickAddress P s i rolls = some (a, rng') →
      rng'.IsSuffix rolls ∧ a ∈ rolls ∧ conflictsWith P s i a = false := by
  intro rolls
  induction rolls with
  | nil => intro a rng' h; simp [pickAddress] at h
  | cons r rest ih =>
    intro a rng' h
    simp only [pickAddress] at h
    by_cases hc : conflictsWith P s i r
    · rw [if_pos hc] at h
      obtain ⟨h1, h2, h3⟩ := ih a rng' h
      exact ⟨h1.trans (List.suffix_cons r rest), by simp [h2], h3⟩
    · rw [if_neg hc] at h
      cases h
      exact ⟨List.suffix_cons r rest, by simp, by simpa using hc⟩

/-- A step of the slot loop consumes draws from the front: the remaining
draws are a suffix of the supplied ones. -/
theorem processSlot_rng (P : Params) (st st' : LogicState × List Event × List Nat)
    (i : Nat) (h : processSlot P st i = some st') : st'.2.2.IsSuffix st.2.2 := by
  simp only [processSlot] at h
  repeat' split at h
  all_goals first
    | exact Option.noConfusion h
    | (cases h
       exact List.suffix_refl _)
    | (rename_i a0 rng0 heq
       cases h
       exact (pickAddress_spec P _ i _ _ _ heq).1)

/-- The slot loop over a list of indices: self index, filter table,
status, table length and every unvisited slot are unchanged; remaining
draws are a suffix; emitted events belong to visited slots. -/
theorem tickFrom_frame (P : Params) :
    ∀ (L : List Nat) (st st' : LogicState × List Event × List Nat),
      tickFrom P st L = some st' →
      st'.1.selfIdx = st.1.selfIdx ∧ st'.1.address_filters = st.1.address_filters ∧
      st'.1.status = st.1.status ∧ st'.1.drivers.length = st.1.drivers.length ∧
      (∀ k, k ∉ L → st'.1.drivers.getD k none = st.1.drivers.getD k none) ∧
      st'.2.2.IsSuffix st.2.2 ∧
      ∃ new, st'.2.1 = st.2.1 ++ new ∧ ∀ e ∈ new, ∃ j, j ∈ L ∧ eventSlot e = some j := by
  intro L
  induction L with
  | nil =>
    intro st st' h
    cases h
    exact ⟨rfl, rfl, rfl, rfl, fun k _ => rfl, List.suffix_refl _, [], by simp, by simp⟩
  | cons i rest ih =>
    intro st st' h
    simp only [tickFrom] at h
    cases hp : processSlot P st i with
    | none =>
      rw [hp] at h
      exact Option.noConfusion h
    | some st1 =>
      simp only [hp] at h
      obtain ⟨a1, b1, c1, d1, e1⟩ := processSlot_frame P st st1 i hp
      obtain ⟨new1, hn1, hn1s⟩ := processSlot_events P st st1 i hp
      have hr1 := processSlot_rng P st st1 i hp
      obtain ⟨a2, b2, c2, d2, e2, r2, new2, hn2, hn2s⟩ := ih st1 st' h
      refine ⟨a2.trans a1, b2.trans b1, c2.trans c1, d2.trans d1, ?_, r2.trans hr1,
        new1 ++ new2, ?_, ?_⟩
      · intro k hk
        have hki : k ≠ i := fun hh => hk (by simp [hh])
        have hkr : k ∉ rest := fun hh => hk (by simp [hh])
        exact (e2 k hkr).trans (e1 k hki)
      · rw [hn2, hn1, List.append_assoc]
      · intro e he
        rcases List.mem_append.mp he with h1 | h2
        · exact ⟨i, by simp, hn1s e h1⟩
        · obtain ⟨j, hj1, hj2⟩ := hn2s e h2
          exact ⟨j, by simp [hj1], hj2⟩

/-- Where an INITIALISED record after a run of the slot loop over distinct
indices comes from: a record at the same slot with the same address that
was INITIALISED already, or INITIALISING and completed during the run. -/
theorem tickFrom_origin (P : Params) :
    ∀ (L : List Nat), L.Nodup →
      ∀ (st st' : LogicState × List Event × List Nat),
        tickFrom P st L = some st' →
        ∀ k d', st'.1.drivers.getD k none = some d' →
          d'.device.flags &&& PKT_DEVICE_FLAGS_INITIALISED ≠ 0 →
          ∃ d, st.1.drivers.getD k none = some d ∧ d.device.address = d'.device.address ∧
            (d.device.flags &&& PKT_DEVICE_FLAGS_INITIALISED ≠ 0 ∨
             (d.device.flags &&& PKT_DEVICE_FLAGS_INITIALISING ≠ 0 ∧ k ∈ L)) := by
  intro L
  induction L with
  | nil =>
    intro _ st st' h k d' h' hflag
    cases h
    exact ⟨d', h', rfl, Or.inl hflag⟩
  | cons i rest ih =>
    intro hnd st st' h k d' h' hflag
    have hnd' := List.nodup_cons.mp hnd
    simp only [tickFrom] at h
    cases hp : processSlot P st i with
    | none =>
      rw [hp] at h
      exact Option.noConfusion h
    | some st1 =>
      simp only [hp] at h
      obtain ⟨d1, hd1, haddr1, hor1⟩ := ih hnd'.2 st1 st' h k d' h' hflag
      by_cases hki : k = i
      · subst hki
        cases hor1 with
        | inl hini =>
          obtain ⟨d0, hd0, haddr0, hor0⟩ := processSlot_origin P st st1 k hp d1 hd1 hini
          exact ⟨d0, hd0, haddr0.trans haddr1,
            hor0.elim Or.inl (fun hg => Or.inr ⟨hg, by simp⟩)⟩
        | inr hmem => exact absurd hmem.2 hnd'.1
      · have hfr := (processSlot_frame P st st1 i hp).2.2.2.2 k hki
        rw [hfr] at hd1
        exact ⟨d1, hd1, haddr1,
          hor1.elim Or.inl (fun hg => Or.inr ⟨hg.1, by simp [hg.2]⟩)⟩

/-- The slot loop over a concatenation runs the two parts in sequence. -/
theorem tickFrom_append (P : Params) :
    ∀ (L1 L2 : List Nat) (st : LogicState × List Event × List Nat),
      tickFrom P st (L1 ++ L2) =
        match tickFrom P st L1 with
        | none => none
        | some st1 => tickFrom P st1 L2 := by
  intro L1
  induction L1 with
  | nil => intro L2 st; rfl
  | cons i rest ih =>
    intro L2 st
    simp only [List.cons_append, tickFrom]
    cases hp : processSlot P st i with
    | none => rfl
    | some st1 => exact ih L2 st1

/-- Splitting the index range of the slot loop at a given slot. -/
theorem range_split (i n : Nat) (h : i < n) :
    List.range n = List.range i ++ i :: List.range' (i + 1) (n - i - 1) ∧
    (∀ j ∈ List.range i, j < i) ∧
    (∀ j ∈ List.range' (i + 1) (n - i - 1), i < j) := by
  refine ⟨?_, ?_, ?_⟩
  · rw [List.range_eq_range', List.range_eq_range']
    have hn : n = (n - i) + i := by omega
    rw [hn, ← List.range'_append 0 i (n - i) 1]
    simp only [Nat.zero_add, Nat.one_mul]
    have hm : n - i = (n - i - 1) + 1 := by omega
    rw [hm, List.range'_succ]
    have hs : n - i - 1 + 1 + i - i - 1 = n - i - 1 := by omega
    rw [hs]
  · intro j hj
    exact List.mem_range.mp hj
  · intro j hj
    have := List.mem_range'_1.mp hj
    omega

/-- The conflict scan ignores slot `i` itself, so overwriting slot `i`
does not change it. -/
theorem conflictsWith_set_self (P : Params) (s : LogicState) (i cand : Nat)
    (x : Option PktSerialDriver) :
    conflictsWith P { s with drivers := s.drivers.set i x } i cand =
      conflictsWith P s i cand := by
  unfold conflictsWith
  apply any_congr_pt
  intro j _
  by_cases hji : j = i
  · simp [hji]
  · simp only [List.getD, List.get?_eq_getElem?, List.getElem?_set_ne (Ne.symm hji)]

/-- The re-roll loop ignores slot `i` itself. -/
theorem pickAddress_set_self (P : Params) (s : LogicState) (i : Nat)
    (x : Option PktSerialDriver) :
    ∀ rolls, pickAddress P { s with drivers := s.drivers.set i x } i rolls =
      pickAddress P s i rolls := by
  intro rolls
  induction rolls with
  | nil => rfl
  | cons r rest ih =>
    simp only [pickAddress, conflictsWith_set_self, ih]

/-- The slot step at an unallocated LOCAL slot: draw a fresh address from
the random source and mark the slot INITIALISING, queueing one control
packet; the rolling counter is left as it was. -/
theorem processSlot_alloc (P : Params) (st : LogicState × List Event × List Nat) (i : Nat)
    (d : PktSerialDriver)
    (hself : ¬ i = st.1.selfIdx)
    (hslot : st.1.drivers.getD i none = some d)
    (hniet : d.device.flags &&& (PKT_DEVICE_FLAGS_INITIALISED ||| PKT_DEVICE_FLAGS_INITIALISING) = 0)
    (hlocal : d.device.flags &&& PKT_DEVICE_FLAGS_LOCAL ≠ 0)
    (hrem : d.device.flags &&& PKT_DEVICE_FLAGS_REMOTE = 0) :
    processSlot P st i =
      match pickAddress P st.1 i st.2.2 with
      | none => none
      | some (a, rng') =>
        some ({ st.1 with drivers := st.1.drivers.set i (some { d with device :=
            { d.device with
                address := a
                flags := d.device.flags ||| PKT_DEVICE_FLAGS_INITIALISING } }) },
          st.2.1 ++ [Event.queueCP i], rng') := by
  simp only [processSlot, hslot, if_neg hself, hniet]
  simp only [if_neg (by simp : ¬ (0 : Nat) ≠ 0)]
  simp only [hrem]
  simp only [if_neg (by simp : ¬ ((0 : Nat) ≠ 0 ∧ d.device.rolling_counter = P.timeout))]
  simp only [hniet]
  simp only [if_pos hlocal, if_pos rfl]
  rw [pickAddress_set_self]
  cases pickAddress P st.1 i st.2.2 with
  | none => rfl
  | some v =>
    cases v with
    | mk a rng' => simp [List.set_set]

/-- C2 amended: on a tick with the bus running, a LOCAL slot with neither
INITIALISING nor INITIALISED set receives an address drawn from the random
source by the re-roll loop (rejecting candidates held by any other
INITIALISED slot, as of the intermediate state when the slot's turn
comes), with the candidate below 256 when the draws are; the slot's flags
gain INITIALISING, `queue_control_packet` is called exactly once for the
slot, and the rolling counter is NOT reset: it keeps its previous value. -/
theorem C2_allocation_amended (P : Params) (s : LogicState) (rng : List Nat)
    (i : Nat) (d : PktSerialDriver)
    (hi : i < P.driverSize)
    (hself : ¬ i = s.selfIdx)
    (hslot : s.drivers.getD i none = some d)
    (hniet : d.device.flags &&& (PKT_DEVICE_FLAGS_INITIALISED ||| PKT_DEVICE_FLAGS_INITIALISING) = 0)
    (hlocal : d.device.flags &&& PKT_DEVICE_FLAGS_LOCAL ≠ 0)
    (hrem : d.device.flags &&& PKT_DEVICE_FLAGS_REMOTE = 0)
    (hbound : ∀ r ∈ rng, r < 256)
    (out : LogicState × List Event × List Nat)
    (hrun : periodicCallback P true s rng = some out) :
    ∃ (mid : LogicState × List Event × List Nat) (a : Nat) (rng2 : List Nat),
      tickFrom P (s, [], rng) (List.range i) = some mid ∧
      mid.1.drivers.getD i none = some d ∧
      pickAddress P mid.1 i mid.2.2 = some (a, rng2) ∧
      a < 256 ∧
      conflictsWith P mid.1 i a = false ∧
      out.1.drivers.getD i none =
        some { d with device := { d.device with address := a, flags := d.device.flags ||| PKT_DEVICE_FLAGS_INITIALISING } } ∧
      out.2.1.count (Event.queueCP i) = 1 := by
  obtain ⟨hsplit, hlt1, hgt2⟩ := range_split i P.driverSize hi
  have hrun' : tickFrom P (s, [], rng) (List.range P.driverSize) = some out := hrun
  rw [hsplit, tickFrom_append] at hrun'
  cases hmid : tickFrom P (s, [], rng) (List.range i) with
  | none =>
    rw [hmid] at hrun'
    exact Option.noConfusion hrun'
  | some mid =>
    rw [hmid] at hrun'
    obtain ⟨g1, g2, g3, g4, g5, g6, new1, hev1, hev1s⟩ :=
      tickFrom_frame P (List.range i) _ _ hmid
    have hmidslot : mid.1.drivers.getD i none = some d := by
      rw [g5 i (fun hh => absurd (hlt1 i hh) (lt_irrefl i))]
      exact hslot
    have hmidself : ¬ i = mid.1.selfIdx := by
      rw [g1]
      exact hself
    simp only [tickFrom, processSlot_alloc P mid i d hmidself hmidslot hniet hlocal hrem]
      at hrun'
    cases hpick : pickAddress P mid.1 i mid.2.2 with
    | none =>
      rw [hpick] at hrun'
      exact Option.noConfusion hrun'
    | some v =>
      obtain ⟨a, rng2⟩ := v
      simp only [hpick] at hrun'
      obtain ⟨f1, f2, f3, f4, f5, f6, new2, hev2, hev2s⟩ :=
        tickFrom_frame P (List.range' (i + 1) (P.driverSize - i - 1)) _ _ hrun'
      have hlen : i < mid.1.drivers.length := lt_length_of_getD _ _ _ hmidslot
      have houtslot : out.1.drivers.getD i none =
          some { d with device := { d.device with address := a, flags := d.device.flags ||| PKT_DEVICE_FLAGS_INITIALISING } } := by
        rw [f5 i (fun hh => absurd (hgt2 i hh) (lt_irrefl i))]
        exact getD_set_self _ _ _ _ hlen
      obtain ⟨hsuf, hmem, hconf⟩ := pickAddress_spec P mid.1 i _ a rng2 hpick
      have hsufmid : mid.2.2.IsSuffix rng := g6
      have ha : a < 256 := hbound a (hsufmid.subset hmem)
      have hnew1 : new1.count (Event.queueCP i) = 0 := by
        rw [List.count_eq_zero]
        intro hin
        obtain ⟨j, hj1, hj2⟩ := hev1s _ hin
        simp only [eventSlot] at hj2
        cases hj2
        exact absurd (hlt1 _ hj1) (lt_irrefl _)
      have hnew2 : new2.count (Event.queueCP i) = 0 := by
        rw [List.count_eq_zero]
        intro hin
        obtain ⟨j, hj1, hj2⟩ := hev2s _ hin
        simp only [eventSlot] at hj2
        cases hj2
        exact absurd (hgt2 _ hj1) (lt_irrefl _)
      have hev1' : mid.2.1 = new1 := by simpa using hev1
      have hcount : out.2.1.count (Event.queueCP i) = 1 := by
        rw [hev2]
        simp [List.count_append, hev1', hnew1, hnew2]
      exact ⟨mid, a, rng2, rfl, hmidslot, hpick, ha, hconf, houtslot, hcount⟩

/-- C2 witness: the amended allocation statement at the concrete state
`sAlloc` (slot 1 LOCAL, unallocated, counter 3) with draws [0, 9]: the
slot ends at address 9, INITIALISING, counter still 3, one queued control
packet. -/
theorem C2_witness :
    ∃ (mid : LogicState × List Event × List Nat) (a : Nat) (rng2 : List Nat),
      tickFrom P0 (sAlloc, [], [0, 9]) (List.range 1) = some mid ∧
      mid.1.drivers.getD 1 none = some drvFresh ∧
      pickAddress P0 mid.1 1 mid.2.2 = some (a, rng2) ∧
      a < 256 ∧
      conflictsWith P0 mid.1 1 a = false ∧
      outAlloc.1.drivers.getD 1 none =
        some { drvFresh with device := { drvFresh.device with address := a, flags := drvFresh.device.flags ||| PKT_DEVICE_FLAGS_INITIALISING } } ∧
      outAlloc.2.1.count (Event.queueCP 1) = 1 :=
  C2_allocation_amended P0 sAlloc [0, 9] 1 drvFresh (by decide) (by decide) (by decide)
    (by decide) (by decide) (by decide) (by decide) outAlloc (by decide)

/-- Clearing masked bits, then testing disjoint bits, sees through the
clear. -/
theorem clear8_preserves (f a b : Nat) (h : (255 ^^^ a) &&& b = b) :
    clear8 f a &&& b = f &&& b := by
  unfold clear8
  exact and_mask_assoc f _ b b h

/-- `handlePacket` preserves every slot's address and INITIALISED bit:
its only slot mutations are setting CP_SEEN and clearing INITIALISING on
the address-matching slot. -/
theorem handlePacketCore_drivers (P : Params) (drivers : List (Option PktSerialDriver))
    (filters : List Nat) (cp : ControlPacket) (k : Nat) :
    (((handlePacketCore P drivers filters cp).1.getD k none).map
        (fun d => (d.device.address, d.device.flags &&& PKT_DEVICE_FLAGS_INITIALISED))) =
      ((drivers.getD k none).map
        (fun d => (d.device.address, d.device.flags &&& PKT_DEVICE_FLAGS_INITIALISED))) := by
  simp only [handlePacketCore]
  split
  · rename_i x i d0 heq
    obtain ⟨hgd, hpd, hmem⟩ := firstSlot_eq_some _ _ _ _ _ heq
    have hlen : k = i → i < drivers.length := fun _ => lt_length_of_getD _ _ _ hgd
    split
    · rfl
    · split
      · by_cases hk : k = i
        · subst hk
          rw [getD_set_self _ _ _ _ (hlen rfl), hgd]
          simp only [Option.map_some']
          rw [clear8_preserves _ _ _ (by decide)]
        · rw [getD_set_ne _ _ _ _ _ (Ne.symm hk)]
      · by_cases hk : k = i
        · subst hk
          rw [getD_set_self _ _ _ _ (hlen rfl), hgd]
          simp only [Option.map_some']
          rw [or_mask_and _ _ _ (by decide)]
        · rw [getD_set_ne _ _ _ _ _ (Ne.symm hk)]
  · split
    · rfl
    · split
      · rfl
      · rfl

/-- C1 amended: the non-zero/unique-address invariant holds for the
INITIALISED records OTHER THAN the logic driver's own (whose record has
INITIALISED set with address 0 from construction): it holds in the
constructor's initial state, is preserved by `handlePacket`, and is
preserved by a periodic tick provided the strengthened invariant (also
covering INITIALISING slots) held before the tick — INITIALISING slots
must be included, since two INITIALISING slots sharing a candidate
address would both complete into INITIALISED with equal addresses. -/
theorem C1_invariant_amended :
    (∀ (P : Params) (serial cls : Nat), InvP (initState P serial cls)) ∧
    (∀ (P : Params) (s : LogicState) (cp : ControlPacket), InvP s →
      InvP (handlePacket P s cp).1) ∧
    (∀ (P : Params) (s : LogicState) (rng : List Nat)
      (out : LogicState × List Event × List Nat), StrongInvP s →
      periodicCallback P true s rng = some out → InvP out.1) := by
  refine ⟨?_, ?_, ?_⟩
  · intro P serial cls i d hne hget hflag
    match i, hne, hget with
    | 0, hne, _ => exact absurd rfl hne
    | Nat.succ m, _, hget =>
      rw [show (initState P serial cls).drivers.getD (m + 1) none =
          (List.replicate (P.driverSize - 1) none).getD m none from rfl,
        getD_replicate_none] at hget
      exact Option.noConfusion hget
  · intro P s cp hInv i d hne hget hflag
    have hmap := handlePacketCore_drivers P s.drivers s.address_filters cp i
    rw [show (handlePacket P s cp).1.drivers = (handlePacketCore P s.drivers s.address_filters cp).1 from rfl]
      at hget
    rw [hget] at hmap
    cases hpre : s.drivers.getD i none with
    | none =>
      rw [hpre] at hmap
      exact Option.noConfusion hmap
    | some d0 =>
      rw [hpre] at hmap
      simp only [Option.map_some'] at hmap
      have haddr : d.device.address = d0.device.address := (Prod.mk.injEq _ _ _ _ ▸ (Option.some.injEq _ _ ▸ hmap)).1
      have hbit : d.device.flags &&& PKT_DEVICE_FLAGS_INITIALISED =
          d0.device.flags &&& PKT_DEVICE_FLAGS_INITIALISED := (Prod.mk.injEq _ _ _ _ ▸ (Option.some.injEq _ _ ▸ hmap)).2
      have hne' : i ≠ s.selfIdx := hne
      obtain ⟨h0, huniq⟩ := hInv i d0 hne' hpre (hbit ▸ hflag)
      refine ⟨haddr ▸ h0, ?_⟩
      intro j e hjne hji hgetj hflagj
      have hmapj := handlePacketCore_drivers P s.drivers s.address_filters cp j
      rw [show (handlePacket P s cp).1.drivers = (handlePacketCore P s.drivers s.address_filters cp).1 from rfl]
        at hgetj
      rw [hgetj] at hmapj
      cases hprej : s.drivers.getD j none with
      | none =>
        rw [hprej] at hmapj
        exact Option.noConfusion hmapj
      | some e0 =>
        rw [hprej] at hmapj
        simp only [Option.map_some'] at hmapj
        have haddrj : e.device.address = e0.device.address := (Prod.mk.injEq _ _ _ _ ▸ (Option.some.injEq _ _ ▸ hmapj)).1
        have hbitj : e.device.flags &&& PKT_DEVICE_FLAGS_INITIALISED =
            e0.device.flags &&& PKT_DEVICE_FLAGS_INITIALISED := (Prod.mk.injEq _ _ _ _ ▸ (Option.some.injEq _ _ ▸ hmapj)).2
        have := huniq j e0 hjne hji hprej (hbitj ▸ hflagj)
        rw [haddrj, haddr]
        exact this
  · intro P s rng out hS hrun
    have hrun' : tickFrom P (s, [], rng) (List.range P.driverSize) = some out := hrun
    have hsel : out.1.selfIdx = s.selfIdx := (tickFrom_frame P _ _ _ hrun').1
    intro i d' hne hget hflag
    obtain ⟨d, hd, haddr, hor⟩ :=
      tickFrom_origin P _ (List.nodup_range _) _ _ hrun' i d' hget hflag
    have h12eq : (PKT_DEVICE_FLAGS_INITIALISED ||| PKT_DEVICE_FLAGS_INITIALISING : Nat) = 12 := by
      decide
    have hd12 : d.device.flags &&& (PKT_DEVICE_FLAGS_INITIALISED ||| PKT_DEVICE_FLAGS_INITIALISING) ≠ 0 := by
      rw [h12eq, and_twelve_split]
      cases hor with
      | inl h => exact or_ne_zero_left _ _ h
      | inr h => exact or_ne_zero_right _ _ h.1
    have hne' : i ≠ s.selfIdx := by
      rw [← hsel]
      exact hne
    obtain ⟨h0, huniq⟩ := hS i d hne' hd hd12
    refine ⟨haddr ▸ h0, ?_⟩
    intro j e' hjne hji hgetj hflagj
    obtain ⟨e, he, haddre, hore⟩ :=
      tickFrom_origin P _ (List.nodup_range _) _ _ hrun' j e' hgetj hflagj
    have he12 : e.device.flags &&& (PKT_DEVICE_FLAGS_INITIALISED ||| PKT_DEVICE_FLAGS_INITIALISING) ≠ 0 := by
      rw [h12eq, and_twelve_split]
      cases hore with
      | inl h => exact or_ne_zero_left _ _ h
      | inr h => exact or_ne_zero_right _ _ h.1
    have hjne' : j ≠ s.selfIdx := by
      rw [← hsel]
      exact hjne
    have := huniq j e hjne' hji he he12
    rw [← haddr, ← haddre]
    exact this

/-- C1 witness: the amended invariant exercised at concrete inputs: the
constructor's state, a `handlePacket` step on a table whose only occupied
slot is the logic driver's own, and one periodic tick on the same table. -/
theorem C1_witness :
    InvP (initState P0 42 0) ∧ InvP (handlePacket P0 sFilters cpS3).1 ∧ InvP sFilters := by
  have hInvF : InvP sFilters := by
    intro i d hne hget hflag
    match i, hne, hget with
    | 0, hne, _ => exact absurd rfl hne
    | 1, _, hget => exact Option.noConfusion hget
    | 2, _, hget => exact Option.noConfusion hget
    | 3, _, hget => exact Option.noConfusion hget
    | Nat.succ (Nat.succ (Nat.succ (Nat.succ m))), _, hget => exact Option.noConfusion hget
  have hStrongF : StrongInvP sFilters := by
    intro i d hne hget hflag
    match i, hne, hget with
    | 0, hne, _ => exact absurd rfl hne
    | 1, _, hget => exact Option.noConfusion hget
    | 2, _, hget => exact Option.noConfusion hget
    | 3, _, hget => exact Option.noConfusion hget
    | Nat.succ (Nat.succ (Nat.succ (Nat.succ m))), _, hget => exact Option.noConfusion hget
  exact ⟨C1_invariant_amended.1 P0 42 0,
    C1_invariant_amended.2.1 P0 sFilters cpS3 hInvF,
    C1_invariant_amended.2.2 P0 sFilters [] (sFilters, [], []) hStrongF rfl⟩
